import Mathlib

/-!
Verification of the conversation normalization and persistence core of
llm-conversations-viewer, a client-side viewer for ChatGPT/Claude export
files.  The definitions below are a shallow embedding of the JavaScript
sources under js/: parsers.js (format detection and the two normalizers),
utils/export.js (export serialization), utils/storage.js and
utils/indexeddb.js (the persistence layer with localStorage-to-IndexedDB
migration) and the merge logic of app.js.

Modelling conventions:
* JavaScript numbers carrying timestamps are modelled by Int (the inputs of
  interest carry integral epoch values; a JS Date clips its value to integer
  milliseconds).
* A JS Date is modelled by Option Int: some ms is a valid date holding ms
  milliseconds since the epoch, none is an Invalid Date (produced e.g. by
  new Date(undefined)).
* A valid ISO-8601 timestamp string is modelled by the instant it denotes
  (structure IsoString, wrapping the millisecond value).  Per ECMA-262,
  Date.prototype.toISOString and Date parsing of its output are mutually
  inverse at millisecond precision, so a string produced by toISOString is
  fully described by its instant.
* A possibly-absent JS value (undefined) is modelled by Option; JS
  truthiness on strings (undefined/null/"" are falsy) is made explicit.
* Exceptions thrown by the code are modelled by Except String / by a
  JsResult value for the async storage layer; the unbounded while-loop of
  the tree walk is modelled with an explicit fuel parameter where a result
  of none means the loop has not exited within the given number of
  iterations (so divergence is "none for every fuel").
-/

/-- Result of a JS async function: either a resolved value or a rejected
promise carrying an error message. -/
inductive JsResult (α : Type) where
  | ok (a : α)
  | thrown (e : String)
deriving DecidableEq

/-- A valid ISO-8601 timestamp string, modelled by the instant (epoch
milliseconds) it denotes. -/
structure IsoString where
  ms : Int
deriving DecidableEq

/-- A JS Date: some ms = valid date, none = Invalid Date. -/
abbrev JsDate := Option Int

/-- new Date(x) where x is an ISO string or undefined:
undefined yields an Invalid Date. -/
def dateOfIso : Option IsoString → JsDate
  | none => none
  | some i => some i.ms

/-- Date.prototype.toISOString: throws a RangeError on an Invalid Date,
modelled by none. -/
def toISOString : JsDate → Option IsoString
  | none => none
  | some ms => some ⟨ms⟩

/-- JS truthiness of a possibly-absent string (undefined, null and "" are
falsy). -/
def jsTruthyStr : Option String → Bool
  | none => false
  | some s => s ≠ ""

/-- JS `a || b` on possibly-absent strings: the first operand if truthy,
otherwise the second operand. -/
def jsOrStr (a : Option String) (b : String) : String :=
  match a with
  | some s => if s = "" then b else s
  | none => b

/-- JS `a || b` where both operands may be absent (parsers.js line 69,
`conv.conversation_id || conv.id`). -/
def jsOrOpt (a b : Option String) : Option String :=
  if jsTruthyStr a then a else b

/-- Message metadata bag of the canonical model.  parsers.js line 57-60
stores model_slug/status for the tree format, line 95-98 stores
attachments/files for the linear format; export.js passes the bag through
verbatim. -/
structure MsgMetadata where
  model : Option String := none
  status : Option String := none
  attachments : Option (List String) := none
  files : Option (List String) := none
deriving DecidableEq

/-- Canonical message (parsers.js lines 52-61 and 87-99). -/
structure Message where
  id : Option String
  role : String
  content : String
  timestamp : JsDate
  metadata : MsgMetadata
deriving DecidableEq

/-- Canonical conversation (parsers.js lines 68-75 and 101-109). -/
structure Conversation where
  id : Option String
  title : String
  created : JsDate
  updated : JsDate
  format : String
  summary : Option String
  messages : List Message
deriving DecidableEq

/-- A node message of the OpenAI tree format (parsers.js lines 47-61):
content is the content.parts array (absent content/parts modelled by
none), is_hidden is the truthiness of
metadata.is_visually_hidden_from_conversation. -/
structure RawOpenAIMessage where
  id : Option String := none
  role : String := ""
  content : Option (List String) := none
  create_time : Option Int := none
  model_slug : Option String := none
  status : Option String := none
  is_hidden : Bool := false
deriving DecidableEq

/-- A node of the OpenAI mapping (parsers.js lines 43-65). -/
structure RawNode where
  message : Option RawOpenAIMessage := none
  parent : Option String := none
deriving DecidableEq

/-- A content item of a Claude chat message (parsers.js lines 90-93). -/
structure RawContentItem where
  type : String
  text : String
deriving DecidableEq

/-- A Claude chat message (parsers.js lines 87-99). -/
structure RawClaudeMessage where
  uuid : Option String := none
  sender : String := ""
  content : Option (List RawContentItem) := none
  created_at : Option IsoString := none
  attachments : Option (List String) := none
  files : Option (List String) := none
deriving DecidableEq

/-- An exported message as written by export.js lines 22-28: the timestamp
has been flattened to an ISO string. -/
structure ExpMessage where
  id : Option String
  role : String
  content : String
  timestamp : IsoString
  metadata : MsgMetadata
deriving DecidableEq

/-- An exported conversation as written by export.js lines 15-29. -/
structure ExpConversation where
  id : Option String
  title : String
  created : IsoString
  updated : IsoString
  format : String
  summary : Option String
  messages : List ExpMessage
deriving DecidableEq

/-- One element of the raw parsed JSON array handed to detectFormat /
parseConversations.  Every key any of the code paths reads is an optional
field (JS reads of absent keys yield undefined).  The messages field holds
re-imported data in this app's own export shape. -/
structure RawConv where
  mapping : Option (List (String × RawNode)) := none
  current_node : Option String := none
  chat_messages : Option (List RawClaudeMessage) := none
  uuid : Option String := none
  conversation_id : Option String := none
  id : Option String := none
  title : Option String := none
  name : Option String := none
  create_time : Option Int := none
  update_time : Option Int := none
  created_at : Option IsoString := none
  updated_at : Option IsoString := none
  created : Option IsoString := none
  updated : Option IsoString := none
  format : Option String := none
  summary : Option String := none
  messages : Option (List ExpMessage) := none
deriving DecidableEq

/-- detectFormat (parsers.js lines 10-28).  An object-valued field
(mapping, chat_messages) is truthy whenever present; string fields use
string truthiness.  A non-array or empty input throws, as does an input
matching no signature. -/
def detectFormat (data : List RawConv) : Except String String :=
  match data with
  | [] => .error "Invalid conversation format: expected non-empty array"
  | first :: _ =>
    if first.mapping.isSome && jsTruthyStr first.current_node then
      .ok "openai"
    else if first.chat_messages.isSome && jsTruthyStr first.uuid then
      .ok "claude"
    else
      .error "Unknown conversation format"

/-- conv.mapping[nodeId] (parsers.js line 43): property lookup in the
mapping object. -/
def lookupNode (mp : List (String × RawNode)) (k : String) : Option RawNode :=
  (mp.find? (fun x => x.1 = k)).map (fun x => x.2)

/-- hasContent (parsers.js line 49): node.message.content?.parts?.[0] is
truthy, i.e. parts exists and its first element is a nonempty string. -/
def jsHasContent (m : RawOpenAIMessage) : Bool :=
  match m.content with
  | some (p :: _) => p ≠ ""
  | _ => false

/-- The canonical message built from an eligible OpenAI node message
(parsers.js lines 52-61). -/
def openaiMsg (m : RawOpenAIMessage) : Message :=
  { id := m.id
    role := m.role
    content := String.intercalate "\n" (m.content.getD [])
    timestamp := m.create_time.map (fun t => t * 1000)
    metadata := { model := m.model_slug, status := m.status } }

/-- The backward walk of parseOpenAI (parsers.js lines 39-66), with an
explicit fuel bound on the number of loop iterations: a result of none
means the while-loop has not exited within fuel iterations, so divergence
of the JS loop is "none for every fuel".  Reading conv.mapping[nodeId]
when mapping is undefined throws a TypeError. -/
def walkO (mp? : Option (List (String × RawNode))) :
    Nat → Option String → List Message → Option (Except String (List Message))
  | 0, _, _ => none
  | fuel+1, nodeId, acc =>
    match nodeId with
    | none => some (.ok acc)
    | some s =>
      if s = "" then some (.ok acc)
      else
        match mp? with
        | none => some (.error "TypeError: cannot read properties of undefined")
        | some mp =>
          match lookupNode mp s with
          | none => some (.ok acc)
          | some node =>
            let acc2 :=
              match node.message with
              | none => acc
              | some m =>
                if !m.is_hidden && jsHasContent m then openaiMsg m :: acc else acc
            walkO mp? fuel node.parent acc2

/-- parseOpenAI on one conversation (parsers.js lines 37-76). -/
def parseOneOpenAI (fuel : Nat) (conv : RawConv) :
    Option (Except String Conversation) :=
  match walkO conv.mapping fuel conv.current_node [] with
  | none => none
  | some (.error e) => some (.error e)
  | some (.ok messages) =>
    some (.ok
      { id := jsOrOpt conv.conversation_id conv.id
        title := jsOrStr conv.title "Untitled Conversation"
        created := conv.create_time.map (fun t => t * 1000)
        updated := conv.update_time.map (fun t => t * 1000)
        format := "openai"
        summary := none
        messages := messages })

/-- parseOpenAI (parsers.js lines 36-77): data.map over the conversation
array.  The outer Option is fuel exhaustion of some walk, the inner Except
a thrown TypeError. -/
def parseOpenAI (fuel : Nat) (data : List RawConv) :
    Option (Except String (List Conversation)) :=
  (data.mapM (parseOneOpenAI fuel)).map (fun l => l.mapM id)

/-- parseClaude on one chat message (parsers.js lines 87-99); reading
msg.content.filter when content is undefined throws a TypeError. -/
def parseOneClaudeMsg (msg : RawClaudeMessage) : Except String Message :=
  match msg.content with
  | none => .error "TypeError: cannot read properties of undefined"
  | some items =>
    .ok
      { id := msg.uuid
        role := if msg.sender = "human" then "user" else "assistant"
        content := String.intercalate "\n"
          ((items.filter (fun c => c.type = "text")).map (fun c => c.text))
        timestamp := dateOfIso msg.created_at
        metadata := { attachments := msg.attachments, files := msg.files } }

/-- parseClaude on one conversation (parsers.js lines 86-110); reading
conv.chat_messages.map when chat_messages is undefined throws a
TypeError. -/
def parseOneClaude (conv : RawConv) : Except String Conversation :=
  match conv.chat_messages with
  | none => .error "TypeError: cannot read properties of undefined"
  | some msgs => do
    let messages ← msgs.mapM parseOneClaudeMsg
    .ok
      { id := conv.uuid
        title := jsOrStr conv.name "Untitled Conversation"
        created := dateOfIso conv.created_at
        updated := dateOfIso conv.updated_at
        format := "claude"
        summary := conv.summary
        messages := messages }

/-- parseClaude (parsers.js lines 85-111). -/
def parseClaude (data : List RawConv) : Except String (List Conversation) :=
  data.mapM parseOneClaude

/-- parseConversations (parsers.js lines 118-129): detect, then dispatch. -/
def parseConversations (fuel : Nat) (data : List RawConv) :
    Option (Except String (List Conversation)) :=
  match detectFormat data with
  | .error e => some (.error e)
  | .ok "openai" => parseOpenAI fuel data
  | .ok "claude" => some (parseClaude data)
  | .ok f => some (.error ("Unsupported format: " ++ f))

/-- prepareForExport on one message (export.js lines 22-28):
toISOString throws on an Invalid Date, modelled by none. -/
def exportMsg (m : Message) : Option ExpMessage := do
  let ts ← toISOString m.timestamp
  some
    { id := m.id, role := m.role, content := m.content
      timestamp := ts, metadata := m.metadata }

/-- prepareForExport on one conversation (export.js lines 15-29). -/
def exportConv (c : Conversation) : Option ExpConversation := do
  let cr ← toISOString c.created
  let up ← toISOString c.updated
  let msgs ← c.messages.mapM exportMsg
  some
    { id := c.id, title := c.title, created := cr, updated := up
      format := c.format, summary := c.summary, messages := msgs }

/-- prepareForExport (export.js lines 12-30) on an array argument. -/
def prepareForExport (convs : List Conversation) :
    Option (List ExpConversation) :=
  convs.mapM exportConv

/-- JSON.parse of the serialized export of one conversation, as seen by
detectFormat/parseConversations: a record holding exactly the keys written
by prepareForExport (export.js lines 15-29). -/
def expToRaw (e : ExpConversation) : RawConv :=
  { id := e.id
    title := some e.title
    created := some e.created
    updated := some e.updated
    format := some e.format
    summary := e.summary
    messages := some e.messages }

/-- The export/import round trip of the spec:
normalize, serialize (prepareForExport + JSON.stringify), deserialize
(JSON.parse), normalize again. -/
def exportRoundTrip (fuel : Nat) (data : List RawConv) :
    Option (Except String (List Conversation)) :=
  match parseConversations fuel data with
  | some (.ok convs) =>
    match prepareForExport convs with
    | some es => parseConversations fuel (es.map expToRaw)
    | none => some (.error "RangeError: Invalid time value")
  | other => other

/-! ## Persistence layer: utils/indexeddb.js and utils/storage.js -/

/-- State of the localStorage record under the key 'llm-conversations':
absent, present but unparsable, or a parsed JSON blob of conversations in
the serialized (ISO-string) shape. -/
inductive LSState where
  | absent
  | corrupt
  | data (blob : List ExpConversation)
deriving DecidableEq

/-- Combined state of the two storage backends: the localStorage record
(backend A) and the IndexedDB object store (backend B, one record per
conversation). -/
structure StoreState where
  ls : LSState
  idb : List Conversation
deriving DecidableEq

/-- Environment of one IndexedDBWrapper.saveConversations call: whether
init() rejects, the readwrite transaction fires onerror, the transaction
aborts (e.g. quota exceeded during the write), or the write commits. -/
inductive IdbMode where
  | ok
  | initFail
  | txError (e : String)
  | txAbort
deriving DecidableEq

/-- IndexedDBWrapper.saveConversations (indexeddb.js lines 59-83).  The
try/catch only covers `await this.init()` and the synchronous part of the
body; the promise built from the transaction is returned WITHOUT await, so
a transaction error or abort rejects the returned promise past the catch
block.  The transaction is atomic: on error/abort the store keeps its old
contents; on commit it holds exactly the new collection (clear +
add-all inside one transaction). -/
def idbSaveConversations (mode : IdbMode) (convs : List Conversation)
    (s : StoreState) : JsResult Bool × StoreState :=
  match mode with
  | .ok => (.ok true, { s with idb := convs })
  | .initFail => (.ok false, s)
  | .txError e => (.thrown e, s)
  | .txAbort => (.thrown "Transaction aborted", s)

/-- Storage.saveConversations (storage.js lines 16-18): a direct await of
the IndexedDB wrapper, so a rejection propagates to the caller
unchanged. -/
def storageSaveConversations (mode : IdbMode) (convs : List Conversation)
    (s : StoreState) : JsResult Bool × StoreState :=
  idbSaveConversations mode convs s

/-- Re-hydration of one stored conversation (storage.js lines 56-64 and
indexeddb.js lines 98-106): date strings are parsed back to Date
objects. -/
def hydrateExp (e : ExpConversation) : Conversation :=
  { id := e.id
    title := e.title
    created := some e.created.ms
    updated := some e.updated.ms
    format := e.format
    summary := e.summary
    messages := e.messages.map (fun m =>
      { id := m.id, role := m.role, content := m.content
        timestamp := some m.timestamp.ms, metadata := m.metadata }) }

/-- Storage._loadFromLocalStorage (storage.js lines 46-71): absent key
yields []; a parse error erases the corrupted record and yields []; a
parsed blob is re-hydrated. -/
def loadFromLocalStorage (s : StoreState) : List Conversation × StoreState :=
  match s.ls with
  | .absent => ([], s)
  | .corrupt => ([], { s with ls := .absent })
  | .data blob => (blob.map hydrateExp, s)

/-- Environment of one IndexedDBWrapper.loadConversations call
(indexeddb.js lines 89-111): the awaited init()/getAll() either succeeds
or throws; every throw is caught there. -/
inductive IdbLoadMode where
  | ok
  | fail
deriving DecidableEq

/-- IndexedDBWrapper.loadConversations (indexeddb.js lines 89-111): on
success it returns the stored records (the per-record date re-parse of
lines 98-106 is the identity on the instant, since new Date(d) of a Date
copies its instant); on ANY failure the catch block returns [], so a
non-empty store then REPORTS an empty collection. -/
def idbLoadConversations (mode : IdbLoadMode) (s : StoreState) :
    List Conversation :=
  match mode with
  | .ok => s.idb
  | .fail => []

/-- Storage.loadConversations (storage.js lines 24-40).  Loads backend B;
if the load REPORTS an empty collection — because the store is empty, or
because the read failed and its catch returned [] — it loads backend A
and, when backend A has data, copies it into backend B and removes the
backend A record.  The removal runs whenever the copy resolves (whether to
true or to false), and is skipped only when the copy rejects, in which
case the rejection propagates.  Note the code checks only the reported
list, so a failed backend-B read re-triggers migration even when backend B
holds records (the copy then clears them). -/
def storageLoadConversations (loadMode : IdbLoadMode) (saveMode : IdbMode)
    (s : StoreState) : JsResult (List Conversation) × StoreState :=
  let convs := idbLoadConversations loadMode s
  if convs.length = 0 then
    let res := loadFromLocalStorage s
    let localConvs := res.1
    let s1 := res.2
    if localConvs.length ≠ 0 then
      match idbSaveConversations saveMode localConvs s1 with
      | (.thrown e, s2) => (.thrown e, s2)
      | (.ok _, s2) => (.ok localConvs, { s2 with ls := .absent })
    else (.ok convs, s1)
  else (.ok convs, s)

/-! ## Merge-on-save: app.js -/

/-- The merge step of AppState.addConversations (app.js lines 26-41):
incoming conversations whose id is already present in the loaded set are
dropped, the rest are appended. -/
def mergeConversations (current incoming : List Conversation) :
    List Conversation :=
  current ++ incoming.filter (fun c => !(current.any (fun x => x.id == c.id)))

/-! ## Observers of the backward walk, used to state termination -/

/-- The while-condition of the walk: a truthy node id survives, a falsy
one (undefined or "") is turned into none. -/
def truthyId : Option String → Option String
  | none => none
  | some s => if s = "" then none else some s

/-- The node id the walk's while-loop is about to inspect at iteration k
(none once the loop has exited).  This observer mirrors the loop of
parsers.js lines 42-66 step for step: the loop exits on a falsy id or on
an id not present in the mapping, and otherwise moves to the node's parent
pointer. -/
def idAt (mp : List (String × RawNode)) : Option String → Nat → Option String
  | cur, 0 => truthyId cur
  | cur, k+1 =>
    match cur with
    | none => none
    | some s =>
      if s = "" then none
      else
        match lookupNode mp s with
        | none => none
        | some nd => idAt mp nd.parent k

/-- One step of the id chain: exit on a missing node, otherwise move to
the (truthiness-filtered) parent pointer. -/
def wstep (mp : List (String × RawNode)) : Option String → Option String
  | none => none
  | some s =>
    match lookupNode mp s with
    | none => none
    | some nd => truthyId nd.parent

/-! ## Concrete inputs used by the individual claims -/

/-- Re-imported export record that also carries an incidental tree-format
mapping and current_node: the shape the spec's detection-priority test
prescribes. -/
def reimportWithMapping : RawConv :=
  { id := some "conv-1"
    title := some "T"
    messages := some []
    format := some "openai"
    created := some ⟨1705314600000⟩
    updated := some ⟨1705319100000⟩
    mapping := some [("n1", {})]
    current_node := some "n1" }

/-- A minimal well-formed OpenAI tree conversation: one visible user
message at the root. -/
def rtMsg : RawOpenAIMessage :=
  { id := some "m1", role := "user", content := some ["Hello!"]
    create_time := some 1699564800, status := some "finished_successfully" }

/-- OpenAI input for the round-trip evaluation. -/
def rtInput : List RawConv :=
  [{ mapping := some [("n1", { message := some rtMsg })]
     current_node := some "n1"
     id := some "c0", title := some "Chat"
     create_time := some 1699564800, update_time := some 1699568400 }]

/-- The canonical form of rtInput. -/
def rtNormalized : List Conversation :=
  [{ id := some "c0", title := "Chat"
     created := some 1699564800000, updated := some 1699568400000
     format := "openai", summary := none
     messages := [{ id := some "m1", role := "user", content := "Hello!"
                    timestamp := some 1699564800000
                    metadata := { status := some "finished_successfully" } }] }]

/-- A stored conversation used to exercise the persistence layer. -/
def sampleExp : ExpConversation :=
  { id := some "c1", title := "t"
    created := ⟨1000⟩, updated := ⟨2000⟩
    format := "claude", summary := none
    messages := [{ id := some "m1", role := "user", content := "hi"
                   timestamp := ⟨1500⟩, metadata := {} }] }

/-- An in-memory conversation used to exercise saveConversations. -/
def sampleConv : Conversation :=
  { id := some "c1", title := "t", created := some 1000, updated := some 2000
    format := "claude", summary := none, messages := [] }

/-- A mapping whose parent links form a two-cycle: a -> b -> a. -/
def cycMapping : List (String × RawNode) :=
  [("a", { parent := some "b" }), ("b", { parent := some "a" })]

/-- A Claude chat message whose identity fields (uuid, created_at) are all
absent. -/
def noIdMsg : RawClaudeMessage :=
  { sender := "human", content := some [⟨"text", "Hi"⟩] }

/-- A Claude conversation whose identity fields (uuid, created_at,
updated_at) are entirely absent. -/
def noIdConv : RawConv :=
  { chat_messages := some [noIdMsg] }

/-- A well-formed Claude conversation with a human and an assistant
message. -/
def roleMsgHuman : RawClaudeMessage :=
  { uuid := some "m1", sender := "human", content := some [⟨"text", "Hi"⟩]
    created_at := some ⟨5000⟩ }

/-- The assistant message of the role-mapping example. -/
def roleMsgAssistant : RawClaudeMessage :=
  { uuid := some "m2", sender := "assistant"
    content := some [⟨"text", "Hello"⟩], created_at := some ⟨6000⟩ }

/-- Claude input for the role-mapping claim. -/
def roleInput : List RawConv :=
  [{ uuid := some "cu", name := some "N"
     created_at := some ⟨1000⟩, updated_at := some ⟨2000⟩
     chat_messages := some [roleMsgHuman, roleMsgAssistant] }]

/-- Root message of the synthetic root -> a -> b tree. -/
def treeRootMsg : RawOpenAIMessage :=
  { id := some "mr", role := "user", content := some ["R"]
    create_time := some 10 }

/-- Middle message of the synthetic root -> a -> b tree. -/
def treeAMsg : RawOpenAIMessage :=
  { id := some "ma", role := "assistant", content := some ["A"]
    create_time := some 11 }

/-- Leaf (current) message of the synthetic root -> a -> b tree. -/
def treeBMsg : RawOpenAIMessage :=
  { id := some "mb", role := "user", content := some ["B"]
    create_time := some 12 }

/-- The synthetic tree's mapping, deliberately listed in scrambled
insertion order (b first, then root, then a). -/
def treeMapping : List (String × RawNode) :=
  [("b", { message := some treeBMsg, parent := some "a" }),
   ("root", { message := some treeRootMsg, parent := none }),
   ("a", { message := some treeAMsg, parent := some "root" })]

/-- The canonical form of roleMsgHuman. -/
def roleParsedHuman : Message :=
  { id := some "m1", role := "user", content := "Hi"
    timestamp := some 5000, metadata := {} }

/-- The canonical form of roleMsgAssistant. -/
def roleParsedAssistant : Message :=
  { id := some "m2", role := "assistant", content := "Hello"
    timestamp := some 6000, metadata := {} }

/-- The canonical form of roleInput's sole conversation. -/
def roleParsedConv : Conversation :=
  { id := some "cu", title := "N", created := some 1000
    updated := some 2000, format := "claude", summary := none
    messages := [roleParsedHuman, roleParsedAssistant] }

/-! ## Theorems -/

/-- C1: contrary to the claim, detectFormat has no re-import branch: an
array whose first element carries id, messages, format, created and
updated together with an incidental mapping key is classified into the
tree-format branch when a current_node is also present, and rejected as an
unknown format otherwise — it is never classified as re-import. -/
theorem C1_detect_eval :
    detectFormat [reimportWithMapping] = .ok "openai" ∧
    detectFormat [{ reimportWithMapping with current_node := none }] =
      .error "Unknown conversation format" :=
  ⟨rfl, rfl⟩

/-- C2: contrary to the claim, re-parsing this app's own export fails:
normalizing a well-formed tree-format input succeeds, but running the
serialize/deserialize/normalize round trip throws the unknown-format
error, because detectFormat recognizes no re-import signature. -/
theorem C2_roundtrip_eval :
    parseConversations 3 rtInput = some (.ok rtNormalized) ∧
    exportRoundTrip 3 rtInput = some (.error "Unknown conversation format") :=
  ⟨rfl, rfl⟩

/-- C5: contrary to the claim, saveConversations does not surface every
failure as a boolean: a transaction abort (e.g. quota exhaustion during
the write) or a transaction error rejects the returned promise — only an
init-time failure is caught and resolved to false.  The promise built from
the transaction is returned without await, so its rejection bypasses the
catch block. -/
theorem C5_save_eval :
    storageSaveConversations .txAbort [sampleConv] ⟨.absent, []⟩ =
      (.thrown "Transaction aborted", ⟨.absent, []⟩) ∧
    storageSaveConversations (.txError "QuotaExceededError") [sampleConv]
        ⟨.absent, []⟩ =
      (.thrown "QuotaExceededError", ⟨.absent, []⟩) ∧
    storageSaveConversations .initFail [sampleConv] ⟨.absent, []⟩ =
      (.ok false, ⟨.absent, []⟩) :=
  ⟨rfl, rfl, rfl⟩

/-- C6: the merge of AppState.addConversations is idempotent: merging the
same incoming batch a second time changes nothing, because every incoming
id is already present after the first merge. -/
theorem C6_merge_idempotent (current incoming : List Conversation) :
    mergeConversations (mergeConversations current incoming) incoming =
      mergeConversations current incoming := by
  have hnil :
      incoming.filter
        (fun c => !((mergeConversations current incoming).any
          (fun x => x.id == c.id))) = [] := by
    refine List.filter_eq_nil_iff.mpr ?_
    intro c hc
    simp only [Bool.not_eq_true', Bool.not_eq_false]
    have : (mergeConversations current incoming).any
        (fun x => x.id == c.id) = true := by
      rw [mergeConversations, List.any_append]
      by_cases hS : current.any (fun x => x.id == c.id) = true
      · simp [hS]
      · have hkeep : c ∈ incoming.filter
            (fun c => !(current.any (fun x => x.id == c.id))) := by
          exact List.mem_filter.mpr ⟨hc, by simp [hS]⟩
        have : (incoming.filter
            (fun c => !(current.any (fun x => x.id == c.id)))).any
            (fun x => x.id == c.id) = true :=
          List.any_eq_true.mpr ⟨c, hkeep, by simp⟩
        simp [this]
    simpa using this
  conv_lhs => rw [mergeConversations, hnil]
  exact List.append_nil _

/-- C3 counterexample: "once backend B is non-empty, no subsequent
loadConversations call ever modifies backend A again" is false of the
code: with backend B non-empty but its read failing (the catch of
indexeddb.js loadConversations surfaces the failure as []), a call on a
repopulated backend A re-runs migration — it erases backend A's record
and clobbers backend B with A's data. -/
theorem C3_counterexample :
    ([sampleConv] : List Conversation) ≠ [] ∧
    (storageLoadConversations .fail .ok
        ⟨.data [sampleExp], [sampleConv]⟩).2 =
      ⟨.absent, [hydrateExp sampleExp]⟩ ∧
    LSState.data [sampleExp] ≠ LSState.absent :=
  ⟨by simp, rfl, by simp⟩

/-- C3 (amended): migration is one-directional and one-shot up to
backend-B read failures: with backend B empty and backend A holding data,
the first loadConversations call copies A's records into B and erases A
(whatever the B read reports, since an empty B reports empty either way);
whenever B is non-empty AND its read succeeds, the call leaves the whole
storage state untouched (in particular backend A, even if repopulated) —
but a failed B read reports an empty collection and re-runs migration, as
the counterexample shows; and migration never runs B to A: no call ever
writes data into backend A — its record is either left as-is or
removed. -/
theorem C3_migration_one_shot (s : StoreState) (loadMode : IdbLoadMode)
    (saveMode : IdbMode) (blob : List ExpConversation) :
    (s.idb = [] → s.ls = .data blob → blob ≠ [] → saveMode = .ok →
      storageLoadConversations loadMode saveMode s =
        (.ok (blob.map hydrateExp),
          ⟨.absent, blob.map hydrateExp⟩)) ∧
    (s.idb ≠ [] → loadMode = .ok →
      storageLoadConversations loadMode saveMode s = (.ok s.idb, s)) ∧
    ((storageLoadConversations loadMode saveMode s).2.ls = s.ls ∨
      (storageLoadConversations loadMode saveMode s).2.ls = .absent) := by
  obtain ⟨ls, idb⟩ := s
  refine ⟨?_, ?_, ?_⟩
  · rintro h1 h2 h3 h4
    simp only at h1 h2
    subst h1 h2 h4
    cases loadMode <;>
      simp [storageLoadConversations, idbLoadConversations,
        loadFromLocalStorage, idbSaveConversations, h3]
  · intro h hlm
    simp only at h
    subst hlm
    have hlen : idb.length ≠ 0 := by simpa using h
    simp [storageLoadConversations, idbLoadConversations, hlen]
  · cases loadMode with
    | fail =>
      cases ls with
      | absent =>
        simp [storageLoadConversations, idbLoadConversations,
          loadFromLocalStorage]
      | corrupt =>
        simp [storageLoadConversations, idbLoadConversations,
          loadFromLocalStorage]
      | data blob2 =>
        by_cases hb : blob2 = []
        · simp [storageLoadConversations, idbLoadConversations,
            loadFromLocalStorage, hb]
        · cases saveMode <;>
            simp [storageLoadConversations, idbLoadConversations,
              loadFromLocalStorage, idbSaveConversations, hb]
    | ok =>
      by_cases hidb : idb.length = 0
      · cases ls with
        | absent =>
          simp [storageLoadConversations, idbLoadConversations,
            loadFromLocalStorage, hidb]
        | corrupt =>
          simp [storageLoadConversations, idbLoadConversations,
            loadFromLocalStorage, hidb]
        | data blob2 =>
          by_cases hb : blob2 = []
          · simp [storageLoadConversations, idbLoadConversations,
              loadFromLocalStorage, hidb, hb]
          · cases saveMode <;>
              simp [storageLoadConversations, idbLoadConversations,
                loadFromLocalStorage, idbSaveConversations, hidb, hb]
      · simp [storageLoadConversations, idbLoadConversations, hidb]

/-- C3 witness: with backend A holding one record and backend B empty, a
successful first load migrates the record and erases backend A; and with
backend B non-empty and its read succeeding, the call leaves the state
untouched. -/
theorem C3_migration_one_shot_witness :
    storageLoadConversations .ok .ok ⟨.data [sampleExp], []⟩ =
      (.ok [hydrateExp sampleExp], ⟨.absent, [hydrateExp sampleExp]⟩) ∧
    storageLoadConversations .ok .ok ⟨.data [sampleExp], [sampleConv]⟩ =
      (.ok [sampleConv], ⟨.data [sampleExp], [sampleConv]⟩) :=
  ⟨(C3_migration_one_shot ⟨.data [sampleExp], []⟩ .ok .ok [sampleExp]).1
      rfl rfl (List.cons_ne_nil _ _) rfl,
    (C3_migration_one_shot ⟨.data [sampleExp], [sampleConv]⟩ .ok .ok
        [sampleExp]).2.1 (by simp) rfl⟩

/-- C9: when the migration copy into backend B resolves — whether to true
or to false — loadConversations removes the backend A record
unconditionally and returns the migrated data; when the copy resolved to
false (init failure), backend B is left empty, so the data survives only
in the returned in-memory value.  (Backend B being truly empty, it
reports empty whether or not its read fails, so this holds for either
read outcome.) -/
theorem C9_removal_unconditional (s : StoreState) (loadMode : IdbLoadMode)
    (saveMode : IdbMode) (blob : List ExpConversation)
    (h1 : s.idb = []) (h2 : s.ls = .data blob) (h3 : blob ≠ [])
    (h4 : saveMode = .ok ∨ saveMode = .initFail) :
    (storageLoadConversations loadMode saveMode s).2.ls = .absent ∧
    (storageLoadConversations loadMode saveMode s).1 =
      .ok (blob.map hydrateExp) ∧
    (saveMode = .initFail →
      (storageLoadConversations loadMode saveMode s).2.idb = []) := by
  obtain ⟨ls, idb⟩ := s
  simp only at h1 h2
  subst h1 h2
  rcases h4 with rfl | rfl <;> cases loadMode <;>
    simp [storageLoadConversations, idbLoadConversations,
      loadFromLocalStorage, idbSaveConversations, h3]

/-- C9 witness: a migration whose copy resolves to false (init failure)
still erases backend A, returns the data, and leaves backend B empty. -/
theorem C9_removal_unconditional_witness :
    (storageLoadConversations .ok .initFail ⟨.data [sampleExp], []⟩).2.ls =
        .absent ∧
    (storageLoadConversations .ok .initFail ⟨.data [sampleExp], []⟩).1 =
        .ok [hydrateExp sampleExp] ∧
    (IdbMode.initFail = IdbMode.initFail →
      (storageLoadConversations .ok .initFail
          ⟨.data [sampleExp], []⟩).2.idb = []) := by
  have h := C9_removal_unconditional ⟨.data [sampleExp], []⟩ .ok .initFail
    [sampleExp] rfl rfl (List.cons_ne_nil _ _) (Or.inr rfl)
  simpa using h

/-- If every element of a list maps to a success, mapM over Except
succeeds. -/
theorem exceptMapM_ok {α β : Type} (f : α → Except String β) :
    ∀ l : List α, (∀ a ∈ l, ∃ b, f a = .ok b) →
      ∃ bs, l.mapM f = .ok bs := by
  intro l
  induction l with
  | nil => exact fun _ => ⟨[], rfl⟩
  | cons a t ih =>
    intro h
    obtain ⟨b, hb⟩ := h a (List.mem_cons_self a t)
    obtain ⟨bs, hbs⟩ := ih (fun x hx => h x (List.mem_cons_of_mem a hx))
    refine ⟨b :: bs, ?_⟩
    rw [List.mapM_cons, hb, hbs]
    rfl

/-- Every element of a successful mapM over Except comes from some source
element mapping to it. -/
theorem exceptMapM_mem {α β : Type} (f : α → Except String β) :
    ∀ (l : List α) (res : List β), l.mapM f = .ok res →
      ∀ b ∈ res, ∃ a ∈ l, f a = .ok b := by
  intro l
  induction l with
  | nil =>
    intro res hres b hb
    simp only [List.mapM_nil] at hres
    cases hres
    simp at hb
  | cons a t ih =>
    intro res hres b hb
    rw [List.mapM_cons] at hres
    cases hfa : f a with
    | error e => rw [hfa] at hres; cases hres
    | ok b0 =>
      rw [hfa] at hres
      cases hmt : t.mapM f with
      | error e =>
        rw [hmt] at hres
        cases hres
      | ok bs =>
        rw [hmt] at hres
        have hinj : Except.ok (ε := String) (b0 :: bs) = Except.ok res :=
          hres
        have : b0 :: bs = res := Except.ok.inj hinj
        subst this
        rcases List.mem_cons.mp hb with rfl | hmem
        · exact ⟨a, List.mem_cons_self a t, hfa⟩
        · obtain ⟨a2, ha2, hfa2⟩ := ih bs hmt b hmem
          exact ⟨a2, List.mem_cons_of_mem a ha2, hfa2⟩

/-- C8 counterexample: a conversation whose identity fields (conversation
id and every timestamp) are entirely absent parses WITHOUT any error: the
normalizer returns a conversation with an absent id and Invalid-Date
timestamps instead of failing with MalformedConversationError. -/
theorem C8_counterexample :
    parseClaude [noIdConv] =
      .ok [{ id := none, title := "Untitled Conversation"
             created := none, updated := none
             format := "claude", summary := none
             messages := [{ id := none, role := "user", content := "Hi"
                            timestamp := none, metadata := {} }] }] :=
  rfl

/-- C8 amended: the linear-format normalizer performs no identity-field
validation: when the conversation id and every timestamp are entirely
absent (and every message body is structurally present), parsing succeeds
and yields a conversation with an absent id, Invalid-Date timestamps and
the default title — no MalformedConversationError is ever raised. -/
theorem C8_no_validation (conv : RawConv) (msgs : List RawClaudeMessage)
    (h1 : conv.uuid = none) (h2 : conv.created_at = none)
    (h3 : conv.updated_at = none) (h4 : conv.name = none)
    (h5 : conv.chat_messages = some msgs)
    (h6 : ∀ m ∈ msgs, m.content.isSome = true) :
    ∃ ms, parseClaude [conv] =
      .ok [{ id := none, title := "Untitled Conversation"
             created := none, updated := none
             format := "claude", summary := conv.summary
             messages := ms }] := by
  have hmsg : ∀ m ∈ msgs, ∃ b, parseOneClaudeMsg m = .ok b := by
    intro m hm
    obtain ⟨items, hit⟩ := Option.isSome_iff_exists.mp (h6 m hm)
    refine ⟨{ id := m.uuid
              role := if m.sender = "human" then "user" else "assistant"
              content := String.intercalate "\n"
                ((items.filter (fun c => c.type = "text")).map
                  (fun c => c.text))
              timestamp := dateOfIso m.created_at
              metadata := { attachments := m.attachments
                            files := m.files } }, ?_⟩
    simp only [parseOneClaudeMsg, hit]
  obtain ⟨ms, hms⟩ := exceptMapM_ok _ msgs hmsg
  refine ⟨ms, ?_⟩
  have hone : parseOneClaude conv =
      .ok { id := none, title := "Untitled Conversation"
            created := none, updated := none
            format := "claude", summary := conv.summary
            messages := ms } := by
    simp only [parseOneClaude, h5, hms, h1, h2, h3, h4]
    rfl
  show List.mapM parseOneClaude [conv] = _
  rw [List.mapM_cons, hone, List.mapM_nil]
  rfl

/-- C8 amended witness: concrete instance, on a conversation with absent
uuid, created_at and updated_at. -/
theorem C8_no_validation_witness :
    ∃ ms, parseClaude [noIdConv] =
      .ok [{ id := none, title := "Untitled Conversation"
             created := none, updated := none
             format := "claude", summary := none
             messages := ms }] :=
  C8_no_validation noIdConv [noIdMsg] rfl rfl rfl rfl rfl
    (by
      intro m hm
      rw [List.mem_singleton] at hm
      subst hm
      rfl)

/-- C10: the linear normalizer maps sender "human" to role "user" and
every other sender to "assistant"; hence every message parsed from the
linear format has role "user" or "assistant", never "system", and role
"user" appears exactly for sender "human". -/
theorem C10_role_mapping (data : List RawConv) (convs : List Conversation)
    (hp : parseClaude data = .ok convs) :
    ∀ c ∈ convs, ∀ m ∈ c.messages,
      (m.role = "user" ∨ m.role = "assistant") ∧ m.role ≠ "system" ∧
      ∃ rc ∈ data, ∃ msgs, rc.chat_messages = some msgs ∧
        ∃ rm ∈ msgs,
          m.role = (if rm.sender = "human" then "user" else "assistant") ∧
          (m.role = "user" ↔ rm.sender = "human") := by
  intro c hc m hm
  obtain ⟨rc, hrc, hone⟩ := exceptMapM_mem parseOneClaude data convs hp c hc
  cases hcm : rc.chat_messages with
  | none =>
    simp only [parseOneClaude, hcm] at hone
    cases hone
  | some msgs =>
    simp only [parseOneClaude, hcm] at hone
    cases hmm : msgs.mapM parseOneClaudeMsg with
    | error e =>
      rw [hmm] at hone
      have hone2 : Except.error (α := Conversation) e = Except.ok c := hone
      cases hone2
    | ok ms =>
      rw [hmm] at hone
      have hone2 : Except.ok (ε := String)
          ({ id := rc.uuid, title := jsOrStr rc.name "Untitled Conversation"
             created := dateOfIso rc.created_at
             updated := dateOfIso rc.updated_at
             format := "claude", summary := rc.summary
             messages := ms } : Conversation) = Except.ok c := hone
      have hceq := Except.ok.inj hone2
      have hmsgs : m ∈ ms := by
        rw [← hceq] at hm
        exact hm
      obtain ⟨rm, hrm, hfm⟩ :=
        exceptMapM_mem parseOneClaudeMsg msgs ms hmm m hmsgs
      cases hct : rm.content with
      | none =>
        simp only [parseOneClaudeMsg, hct] at hfm
        cases hfm
      | some items =>
        simp only [parseOneClaudeMsg, hct] at hfm
        have hmeq := Except.ok.inj hfm
        have hrole : m.role =
            (if rm.sender = "human" then "user" else "assistant") := by
          rw [← hmeq]
        refine ⟨?_, ?_, rc, hrc, msgs, hcm, rm, hrm, hrole, ?_⟩
        · rw [hrole]
          by_cases h : rm.sender = "human" <;> simp [h]
        · rw [hrole]
          by_cases h : rm.sender = "human" <;> simp [h]
        · constructor
          · intro hu
            by_contra hs
            rw [hrole, if_neg hs] at hu
            exact absurd hu (by decide)
          · intro hh
            rw [hrole, if_pos hh]

/-- C10 witness: in the concrete two-message conversation, the message
coming from sender "human" has role "user" (and not "system"), with the
stated correspondence to its source message. -/
theorem C10_role_mapping_witness :
    (roleParsedHuman.role = "user" ∨ roleParsedHuman.role = "assistant") ∧
    roleParsedHuman.role ≠ "system" ∧
    ∃ rc ∈ roleInput, ∃ msgs, rc.chat_messages = some msgs ∧
      ∃ rm ∈ msgs,
        roleParsedHuman.role =
          (if rm.sender = "human" then "user" else "assistant") ∧
        (roleParsedHuman.role = "user" ↔ rm.sender = "human") :=
  C10_role_mapping roleInput [roleParsedConv] rfl roleParsedConv
    (List.mem_singleton.mpr rfl) roleParsedHuman
    (by simp [roleParsedConv])

/-- C7: for a tree whose mapping contains the chain
root -> a -> b with the current pointer at b — characterized purely by the
three key lookups, so any insertion order of node ids yields the same
lookups — the tree normalizer returns the messages in chronological
root-to-leaf order [root, a, b]. -/
theorem C7_tree_order (mp : List (String × RawNode))
    (rm am bm : RawOpenAIMessage)
    (hrh : rm.is_hidden = false) (hrc : jsHasContent rm = true)
    (hah : am.is_hidden = false) (hac : jsHasContent am = true)
    (hbh : bm.is_hidden = false) (hbc : jsHasContent bm = true)
    (hr : lookupNode mp "root" = some { message := some rm, parent := none })
    (ha : lookupNode mp "a" =
      some { message := some am, parent := some "root" })
    (hb : lookupNode mp "b" = some { message := some bm, parent := some "a" }) :
    parseOpenAI 4 [{ mapping := some mp, current_node := some "b"
                     id := some "c7", title := some "T"
                     create_time := some 1, update_time := some 2 }] =
      some (.ok [{ id := some "c7", title := "T"
                   created := some 1000, updated := some 2000
                   format := "openai", summary := none
                   messages := [openaiMsg rm, openaiMsg am, openaiMsg bm] }]) := by
  have hw : walkO (some mp) 4 (some "b") [] =
      some (.ok [openaiMsg rm, openaiMsg am, openaiMsg bm]) := by
    simp [walkO, hb, ha, hr, hrh, hrc, hah, hac, hbh, hbc]
  have hone : parseOneOpenAI 4
      { mapping := some mp, current_node := some "b"
        id := some "c7", title := some "T"
        create_time := some 1, update_time := some 2 } =
      some (.ok { id := some "c7", title := "T"
                  created := some 1000, updated := some 2000
                  format := "openai", summary := none
                  messages := [openaiMsg rm, openaiMsg am, openaiMsg bm] }) := by
    simp only [parseOneOpenAI, hw]
    rfl
  rw [parseOpenAI, List.mapM_cons, hone, List.mapM_nil]
  rfl

/-- C7 witness: the concrete scrambled mapping (b listed first, then root,
then a) still yields chronological order [root, a, b]. -/
theorem C7_tree_order_witness :
    parseOpenAI 4 [{ mapping := some treeMapping, current_node := some "b"
                     id := some "c7", title := some "T"
                     create_time := some 1, update_time := some 2 }] =
      some (.ok [{ id := some "c7", title := "T"
                   created := some 1000, updated := some 2000
                   format := "openai", summary := none
                   messages := [openaiMsg treeRootMsg, openaiMsg treeAMsg,
                                openaiMsg treeBMsg] }]) :=
  C7_tree_order treeMapping treeRootMsg treeAMsg treeBMsg
    rfl rfl rfl rfl rfl rfl rfl rfl rfl

/-- Unfolding one step of the id chain: the id inspected at iteration k+1
is obtained from the id at iteration k by one wstep. -/
theorem idAt_succ (mp : List (String × RawNode)) :
    ∀ (k : Nat) (cur : Option String),
      idAt mp cur (k+1) = wstep mp (idAt mp cur k) := by
  intro k
  induction k with
  | zero =>
    intro cur
    cases cur with
    | none => rfl
    | some s =>
      by_cases hs : s = ""
      · simp [idAt, truthyId, wstep, hs]
      · cases hl : lookupNode mp s with
        | none => simp [idAt, truthyId, wstep, hs, hl]
        | some nd => simp [idAt, truthyId, wstep, hs, hl]
  | succ k ih =>
    intro cur
    cases cur with
    | none => rfl
    | some s =>
      by_cases hs : s = ""
      · simp [idAt, wstep, hs]
      · cases hl : lookupNode mp s with
        | none => simp [idAt, wstep, hs, hl]
        | some nd =>
          have e1 : idAt mp (some s) (k + 1 + 1) = idAt mp nd.parent (k + 1) := by
            simp [idAt, hs, hl]
          have e2 : idAt mp (some s) (k + 1) = idAt mp nd.parent k := by
            simp [idAt, hs, hl]
          rw [e1, e2, ih]

/-- If the id chain has exited by iteration k, the walk returns within k+1
units of fuel. -/
theorem walkO_isSome_of_exit (mp : List (String × RawNode)) :
    ∀ (k : Nat) (cur : Option String) (acc : List Message),
      idAt mp cur k = none →
      (walkO (some mp) (k+1) cur acc).isSome = true := by
  intro k
  induction k with
  | zero =>
    intro cur acc h
    cases cur with
    | none => rfl
    | some s =>
      have hs : s = "" := by
        by_contra hs
        simp [idAt, truthyId, hs] at h
      subst hs
      simp [walkO]
  | succ k ih =>
    intro cur acc h
    cases cur with
    | none => rfl
    | some s =>
      by_cases hs : s = ""
      · subst hs
        simp [walkO]
      · cases hl : lookupNode mp s with
        | none => simp [walkO, hs, hl]
        | some node =>
          have h2 : idAt mp node.parent k = none := by
            simpa [idAt, hs, hl] using h
          simp only [walkO, hs, hl, if_neg hs]
          exact ih node.parent _ h2

/-- Pigeonhole: if the id chain never inspects the same node id at two
different iterations, it must exit within mp.length + 1 iterations — every
running iteration after the first lookup consumes a distinct key of the
mapping. -/
theorem idAt_exits_of_acyclic (mp : List (String × RawNode))
    (cur : Option String)
    (hA : ∀ j k s, j < k → idAt mp cur j = some s →
      idAt mp cur k = some s → False) :
    ∃ k, k ≤ mp.length + 1 ∧ idAt mp cur k = none := by
  by_contra hc
  push_neg at hc
  have hsome : ∀ k : Nat, k ≤ mp.length + 1 → ∃ s, idAt mp cur k = some s := by
    intro k hk
    rcases ho : idAt mp cur k with _ | s
    · exact absurd ho (hc k hk)
    · exact ⟨s, rfl⟩
  have hkeys : ∀ k : Nat, k ≤ mp.length →
      (idAt mp cur k).getD "" ∈ mp.map Prod.fst := by
    intro k hk
    obtain ⟨s, hs⟩ := hsome k (Nat.le_succ_of_le hk)
    obtain ⟨s2, hs2⟩ := hsome (k+1) (Nat.succ_le_succ hk)
    rw [idAt_succ, hs] at hs2
    simp only [wstep] at hs2
    cases hl : lookupNode mp s with
    | none => rw [hl] at hs2; cases hs2
    | some nd =>
      obtain ⟨pr, hpr⟩ : ∃ pr, mp.find? (fun x => x.1 = s) = some pr := by
        rcases hf : mp.find? (fun x => x.1 = s) with _ | pr
        · rw [lookupNode, hf] at hl; cases hl
        · exact ⟨pr, hf⟩
      have hmem : pr ∈ mp := List.mem_of_find?_eq_some hpr
      have hp : pr.1 = s := by simpa using List.find?_some hpr
      rw [hs]
      simp only [Option.getD_some]
      rw [← hp]
      exact List.mem_map_of_mem Prod.fst hmem
  have hinj : ∀ j k : Nat, j ≤ mp.length → k ≤ mp.length →
      (idAt mp cur j).getD "" = (idAt mp cur k).getD "" → j = k := by
    intro j k hj hk he
    by_contra hne
    obtain ⟨a, ha⟩ := hsome j (Nat.le_succ_of_le hj)
    obtain ⟨b, hb⟩ := hsome k (Nat.le_succ_of_le hk)
    rw [ha, hb] at he
    simp only [Option.getD_some] at he
    subst he
    rcases Nat.lt_or_ge j k with hlt | hge
    · exact hA j k a hlt ha hb
    · exact hA k j a (lt_of_le_of_ne hge (Ne.symm hne)) hb ha
  have hcard :
      (Finset.univ : Finset (Fin (mp.length + 1))).card ≤
        (mp.map Prod.fst).toFinset.card := by
    refine Finset.card_le_card_of_injOn
      (fun k => (idAt mp cur k.val).getD "") ?_ ?_
    · intro a _
      rw [List.mem_toFinset]
      exact hkeys a.val (Nat.lt_succ_iff.mp a.isLt)
    · intro a _ b _ hab
      exact Fin.ext (hinj a.val b.val (Nat.lt_succ_iff.mp a.isLt)
        (Nat.lt_succ_iff.mp b.isLt) hab)
  have h1 : (Finset.univ : Finset (Fin (mp.length + 1))).card =
      mp.length + 1 := by simp
  have h2 : (mp.map Prod.fst).toFinset.card ≤ mp.length := by
    calc (mp.map Prod.fst).toFinset.card
        ≤ (mp.map Prod.fst).length := (mp.map Prod.fst).toFinset_card_le
      _ = mp.length := by simp
  omega

/-- C4 (amended): the backward walk terminates on every tree-format input
whose parent chain from the current pointer never revisits a node id:
some finite fuel (mp.length + 2 steps) makes the loop exit, yielding a
finite, strictly linear message list; the walk stops at a falsy parent
pointer or at a node id not present in the mapping.  (On a chain that
revisits a node id the loop never exits — see the counterexample.) -/
theorem C4_acyclic_walk_terminates (mp : List (String × RawNode))
    (cur : Option String)
    (hA : ∀ j k s, j < k → idAt mp cur j = some s →
      idAt mp cur k = some s → False) :
    ∃ fuel, (walkO (some mp) fuel cur []).isSome = true := by
  obtain ⟨k, _, hk⟩ := idAt_exits_of_acyclic mp cur hA
  exact ⟨k + 1, walkO_isSome_of_exit mp k cur [] hk⟩

/-- On the two-cycle mapping a -> b -> a the walk never exits, whatever
the fuel. -/
theorem cyc_walk_none :
    ∀ (fuel : Nat) (cur : Option String) (acc : List Message),
      cur = some "a" ∨ cur = some "b" →
      walkO (some cycMapping) fuel cur acc = none := by
  intro fuel
  induction fuel with
  | zero => intro cur acc _; rfl
  | succ n ih =>
    intro cur acc h
    rcases h with rfl | rfl
    · have hstep : walkO (some cycMapping) (n+1) (some "a") acc =
          walkO (some cycMapping) n (some "b") acc := by
        simp [walkO, cycMapping, lookupNode]
      rw [hstep]
      exact ih _ _ (Or.inr rfl)
    · have hstep : walkO (some cycMapping) (n+1) (some "b") acc =
          walkO (some cycMapping) n (some "a") acc := by
        simp [walkO, cycMapping, lookupNode]
      rw [hstep]
      exact ih _ _ (Or.inl rfl)

/-- C4 counterexample: contrary to the claim, the tree walk does NOT
terminate on a mapping whose parent links form a cycle: on the two-cycle
a -> b -> a with the current pointer at a, the while-loop of parseOpenAI
never exits (no amount of fuel makes it return). -/
theorem C4_counterexample :
    ¬ ∃ fuel, (walkO (some cycMapping) fuel (some "a") []).isSome = true := by
  rintro ⟨fuel, hf⟩
  rw [cyc_walk_none fuel (some "a") [] (Or.inl rfl)] at hf
  simp at hf

/-- C4 witness: on the empty mapping with a current pointer, the chain is
trivially free of repeats and the walk terminates. -/
theorem C4_acyclic_walk_terminates_witness :
    ∃ fuel,
      (walkO (some ([] : List (String × RawNode))) fuel (some "x") []).isSome
        = true := by
  apply C4_acyclic_walk_terminates
  intro j k s hjk h1 h2
  have hnone : ∀ n : Nat, idAt [] (some "x") (n+1) = none := by
    intro n
    simp [idAt, lookupNode]
  cases k with
  | zero => omega
  | succ k2 =>
    rw [hnone k2] at h2
    cases h2
